import Mathlib

/-!
Shallow embedding of the conversational-relay bot (src/bot.py, src/main.py,
src/config.py): the per-user rate limiter, the bounded conversation history,
the message chunker, the plain-text message pipeline, the clone dialogue of
main.py, and the admin broadcast command.  Timestamps are modelled as
rationals, message text as `String` / `List Char`, and the external
generation / delivery calls as explicit parameters describing their outcome.
-/

namespace Chat

/-- Role tag of a conversation turn; bot.py stores the strings
"user" and "assistant" in the per-user history entries. -/
inductive Role where
  | user
  | assistant
  deriving DecidableEq, Repr

/-- One history entry of bot.py: a dict `{"role": ..., "content": ...}`. -/
structure Turn where
  role : Role
  content : String
  deriving DecidableEq, Repr

/-- The fields of `BOT_CONFIG` in config.py that the handlers consult. -/
structure BotConfig where
  rate_limit_per_user : Nat
  conversation_history_size : Nat
  max_message_length : Nat
  blocked_users : List String
  deriving DecidableEq, Repr

/-- config.py defaults: rate limit 5, history cap 10, chunk length 4000,
and (with no environment overrides) an empty blocked-user list. -/
def defaultBotConfig : BotConfig :=
  { rate_limit_per_user := 5
    conversation_history_size := 10
    max_message_length := 4000
    blocked_users := [] }

/-! ### Rate limiter (bot.py, `rate_limit` decorator, lines 105-128) -/

/-- The purge inside the decorator: keep exactly the stored timestamps `t`
with `now - t < 1` (drop those with `now - t ≥ 1`). -/
def purgeOld (now : ℚ) (times : List ℚ) : List ℚ :=
  times.filter (fun t => decide (now - t < 1))

/-- One admission step of the decorator: purge, then reject (without
recording) when the remaining count is at least the limit, otherwise append
`now` and accept.  Returns (accepted?, new stored timestamps). -/
def rateLimitStep (limit : Nat) (times : List ℚ) (now : ℚ) : Bool × List ℚ :=
  let purged := purgeOld now times
  if purged.length ≥ limit then (false, purged)
  else (true, purged ++ [now])

/-- Run the admission step over a sequence of event times.  Returns the
final stored timestamps and the list of accepted event times in order. -/
def rateLimitRun (limit : Nat) (times : List ℚ) : List ℚ → List ℚ × List ℚ
  | [] => (times, [])
  | now :: rest =>
    let step := rateLimitStep limit times now
    let r := rateLimitRun limit step.2 rest
    (r.1, (if step.1 then [now] else []) ++ r.2)

/-- The accepted event times of a run started from an empty window. -/
def acceptedTimes (limit : Nat) (events : List ℚ) : List ℚ :=
  (rateLimitRun limit [] events).2

/-! ### Message chunker (bot.py, `send_long_message`, lines 141-145) -/

/-- The slicing loop `for i in range(0, len(text), max_len)`: successive
contiguous slices of at most `maxLen` characters.  For empty text the Python
range is empty and no chunk is produced; `maxLen = 0` (where Python's range
would raise) is mapped to no chunks and is excluded by hypothesis in every
theorem below, matching the positive configured value 4000. -/
def splitChunks (maxLen : Nat) (text : List Char) : List (List Char) :=
  if _h : text.length = 0 ∨ maxLen = 0 then []
  else text.take maxLen :: splitChunks maxLen (text.drop maxLen)
termination_by text.length
decreasing_by simp only [List.length_drop]; omega

/-- `send_long_message` on a `String`, returning the chunks sent in order. -/
def send_long_message (maxLen : Nat) (text : String) : List String :=
  (splitChunks maxLen text.data).map List.asString

/-! ### Conversation history (bot.py, `handle_message`, lines 253-256, 277-278) -/

/-- Python's `log = log[-size:] if len(log) > size else log` as executed on
line 256: truncation to the last `size` entries happens only when the length
exceeds `size`, and `log[-0:]` is the whole list. -/
def truncatePy (size : Nat) (log : List Turn) : List Turn :=
  if log.length > size then
    (if size = 0 then log else log.drop (log.length - size))
  else log

def userTurn (msg : String) : Turn := ⟨Role.user, msg⟩

def assistantTurn (msg : String) : Turn := ⟨Role.assistant, msg⟩

/-! ### Message pipeline (bot.py, `handle_message` with the `rate_limit`
decorator applied, lines 105-128 and 239-284) -/

/-- Outcome of the external Gemini call made by bot.py's `handle_message`:
either the completion text, or a raised exception. -/
inductive GenResult where
  | success (text : String)
  | failure
  deriving DecidableEq, Repr

def blockedMsg : String := "🚫 You are blocked from using this bot."

def rateLimitMsg : String :=
  "🚫 You\x27re sending messages too fast. Please wait a moment."

def genFailureMsg : String :=
  "⚠️ An error occurred while processing your message. Please try again later."

/-- Body of bot.py's `handle_message` (lines 240-284): blocklist check, then
user-turn append with truncation, then the generation call; on success the
reply is sent in chunks and an assistant turn is appended, on a raised
exception the generic apology is sent instead.  Returns (messages sent to
the user in order, new conversation log). -/
def handle_message (cfg : BotConfig) (userId : Nat) (userMsg : String)
    (gen : GenResult) (log : List Turn) : List String × List Turn :=
  if cfg.blocked_users.contains (toString userId) then ([blockedMsg], log)
  else
    let log2 := truncatePy cfg.conversation_history_size (log ++ [userTurn userMsg])
    match gen with
    | GenResult.failure => ([genFailureMsg], log2)
    | GenResult.success t =>
      (send_long_message cfg.max_message_length t, log2 ++ [assistantTurn t])

/-- The full plain-text pipeline as dispatched: the `rate_limit` decorator
wraps `handle_message`, so the purge / limit check / timestamp append run
first and the wrapped handler (blocklist check onwards) runs only on
admission.  Returns (messages sent, new stored timestamps, new log). -/
def processTextEvent (cfg : BotConfig) (userId : Nat) (now : ℚ) (times : List ℚ)
    (userMsg : String) (gen : GenResult) (log : List Turn) :
    List String × List ℚ × List Turn :=
  let purged := purgeOld now times
  if purged.length ≥ cfg.rate_limit_per_user then
    ([rateLimitMsg], purged, log)
  else
    let hm := handle_message cfg userId userMsg gen log
    (hm.1, purged ++ [now], hm.2)

/-- Iterate `handle_message` over a sequence of (message, generation outcome)
events, tracking only the conversation log. -/
def runMessages (cfg : BotConfig) (userId : Nat) (log : List Turn) :
    List (String × GenResult) → List Turn
  | [] => log
  | e :: rest =>
      runMessages cfg userId (handle_message cfg userId e.1 e.2 log).2 rest

/-- The turns appended by one (message, outcome) event of an unblocked user:
the user turn, plus the assistant turn when generation succeeds. -/
def turnsOf (e : String × GenResult) : List Turn :=
  userTurn e.1 ::
    (match e.2 with
      | GenResult.success t => [assistantTurn t]
      | GenResult.failure => [])

/-- All turns appended over a sequence of events, in arrival order. -/
def arrivalTurns : List (String × GenResult) → List Turn
  | [] => []
  | e :: rest => turnsOf e ++ arrivalTurns rest

/-! ### Clone dialogue (main.py, lines 162-218) -/

/-- The two dialogue states of the `/clone` ConversationHandler: outside the
conversation (`Idle`) and `AWAITING_TOKEN`. -/
inductive DialogueState where
  | Idle
  | AwaitingToken
  deriving DecidableEq, Repr

/-- The document persisted by `receive_bot_token` into the `cloned_bots`
collection. -/
structure CloneRecord where
  cloner_telegram_id : Nat
  cloner_telegram_name : String
  bot_token : List Char
  registered_at : ℚ
  deriving DecidableEq, Repr

/-- Python's `str.strip()` on the character list: drop whitespace from both
ends. -/
def stripChars (l : List Char) : List Char :=
  ((l.dropWhile Char.isWhitespace).reverse.dropWhile Char.isWhitespace).reverse

/-- The token-shape check of main.py line 182:
`len(bot_token) > 30 and ':' in bot_token`. -/
def tokenShapeOk (tok : List Char) : Bool :=
  decide (tok.length > 30) && tok.contains ':'

def invalidTokenMsg : String :=
  "That doesn\x27t look like a valid Telegram bot token. Please send a correct token or /cancel."

def cloneSuccessMsg : String :=
  "✅ Bot token registered successfully!"

def cloneCancelMsg : String := "Cloning process cancelled."

/-- main.py's `receive_bot_token` (lines 175-213): strip the message text,
re-prompt and stay in `AWAITING_TOKEN` when the stripped text fails the
shape check, otherwise insert one record and end the conversation.  The
document-store insert is modelled as succeeding (the reachable-store path).
Returns (replies, next dialogue state, new store contents). -/
def receive_bot_token (userId : Nat) (userName : String) (text : List Char)
    (now : ℚ) (store : List CloneRecord) :
    List String × DialogueState × List CloneRecord :=
  let bot_token := stripChars text
  if tokenShapeOk bot_token then
    ([cloneSuccessMsg], DialogueState.Idle,
      store ++ [⟨userId, userName, bot_token, now⟩])
  else
    ([invalidTokenMsg], DialogueState.AwaitingToken, store)

/-- main.py's `cancel_clone` (lines 215-218): reply and end the
conversation; the store is untouched. -/
def cancel_clone (store : List CloneRecord) :
    List String × DialogueState × List CloneRecord :=
  ([cloneCancelMsg], DialogueState.Idle, store)

/-! ### main.py chat handler (`chat_message`, lines 257-289) -/

/-- Outcome of the Gemini call in main.py's `chat_message`: a raised
exception, a response with no candidates/parts, or a first part with the
given text. -/
inductive ChatGenOutcome where
  | failure
  | noParts
  | parts (text : String)
  deriving DecidableEq, Repr

def noContentMsg : String :=
  "I\x27m sorry, I couldn\x27t generate a response at this moment."

def chatErrorMsg : String :=
  "Oops! Something went wrong while processing your request. Please try again later."

/-- main.py's `chat_message`: an empty message returns early with no send;
otherwise the reply is the part text, the no-content notice when the
response has no candidates/parts, or the error text when the call raised.
Returns the messages sent. -/
def chat_message (userMessage : String) (gen : ChatGenOutcome) : List String :=
  if userMessage = "" then []
  else
    [match gen with
      | ChatGenOutcome.parts t => t
      | ChatGenOutcome.noParts => noContentMsg
      | ChatGenOutcome.failure => chatErrorMsg]

/-! ### Broadcast (bot.py, `broadcast`, lines 310-331) -/

def is_admin (adminIds : List Nat) (userId : Nat) : Bool :=
  adminIds.contains userId

def broadcastNotAdminMsg : String :=
  "🚫 This command is only available for admins."

def broadcastUsageMsg : String := "Usage: /broadcast <message>"

/-- bot.py's `broadcast`: non-admins get the uniform refusal; with no
arguments the usage line is sent; otherwise every known user is attempted
in order (a failed send is logged and the loop continues) and the reply
reports the number of successful deliveries.  `deliverOk` tells whether the
send to a given user succeeds.  Returns (users a send was attempted to, in
order, reply to the caller). -/
def broadcast (adminIds : List Nat) (callerId : Nat) (args : List String)
    (knownUsers : List Nat) (deliverOk : Nat → Bool) : List Nat × String :=
  if is_admin adminIds callerId then
    if args.isEmpty then ([], broadcastUsageMsg)
    else
      (knownUsers,
        "📢 Broadcast sent to " ++ toString (knownUsers.countP deliverOk) ++
          " users.")
  else ([], broadcastNotAdminMsg)

/-- Verification predicate for the rate limiter: at every split
`l₁ ++ t :: l₂` of a list of accepted event times, strictly fewer than
`limit` of the earlier accepted times lie within one second of `t` — the
admission check that each accepted event passed. -/
def acceptOk (limit : Nat) (L : List ℚ) : Prop :=
  ∀ l₁ t l₂, L = l₁ ++ t :: l₂ →
    (l₁.filter fun s => decide (t - s < 1)).length < limit

/-- A configuration whose blocked-user list contains user 1, for exercising
the blocklist branch. -/
def blockedCfg : BotConfig := ⟨5, 10, 4000, ["1"]⟩

/-! ## Helper lemmas -/

theorem splitChunks_nil (maxLen : Nat) : splitChunks maxLen [] = [] := by
  rw [splitChunks]
  simp

theorem splitChunks_flatten_aux (maxLen : Nat) (h : 0 < maxLen) :
    ∀ (n : Nat) (text : List Char), text.length ≤ n →
      (splitChunks maxLen text).flatten = text := by
  intro n
  induction n with
  | zero =>
    intro text ht
    have : text = [] := List.length_eq_zero.mp (Nat.le_zero.mp ht)
    rw [this, splitChunks_nil]
    rfl
  | succ n ih =>
    intro text ht
    rw [splitChunks]
    by_cases h0 : text.length = 0 ∨ maxLen = 0
    · rw [dif_pos h0]
      rcases h0 with h0 | h0
      · rw [List.length_eq_zero.mp h0]
        rfl
      · omega
    · rw [dif_neg h0]
      push_neg at h0
      rw [List.flatten_cons,
        ih (text.drop maxLen) (by rw [List.length_drop]; omega),
        List.take_append_drop]

theorem splitChunks_flatten (maxLen : Nat) (h : 0 < maxLen) (text : List Char) :
    (splitChunks maxLen text).flatten = text :=
  splitChunks_flatten_aux maxLen h text.length text le_rfl

theorem splitChunks_chunk_le_aux (maxLen : Nat) :
    ∀ (n : Nat) (text : List Char), text.length ≤ n →
      ∀ c ∈ splitChunks maxLen text, c.length ≤ maxLen := by
  intro n
  induction n with
  | zero =>
    intro text ht c hc
    rw [List.length_eq_zero.mp (Nat.le_zero.mp ht), splitChunks_nil] at hc
    exact absurd hc (List.not_mem_nil c)
  | succ n ih =>
    intro text ht c hc
    rw [splitChunks] at hc
    by_cases h0 : text.length = 0 ∨ maxLen = 0
    · rw [dif_pos h0] at hc
      exact absurd hc (List.not_mem_nil c)
    · rw [dif_neg h0] at hc
      push_neg at h0
      rcases List.mem_cons.mp hc with rfl | hc
      · rw [List.length_take]
        omega
      · exact ih (text.drop maxLen) (by rw [List.length_drop]; omega) c hc

theorem send_long_message_empty (maxLen : Nat) :
    send_long_message maxLen "" = [] := by
  have hd : "".data = [] := rfl
  rw [send_long_message, hd, splitChunks_nil]
  rfl

theorem truncatePy_length_le (size : Nat) (hs : 0 < size) (l : List Turn) :
    (truncatePy size l).length ≤ size := by
  unfold truncatePy
  by_cases hl : l.length > size
  · rw [if_pos hl, if_neg (by omega)]
    rw [List.length_drop]
    omega
  · rw [if_neg hl]
    omega

theorem truncatePy_suffix (size : Nat) (l : List Turn) : truncatePy size l <:+ l := by
  unfold truncatePy
  by_cases hl : l.length > size
  · rw [if_pos hl]
    by_cases h0 : size = 0
    · rw [if_pos h0]
    · rw [if_neg h0]
      exact List.drop_suffix _ _
  · rw [if_neg hl]

theorem truncatePy_getLast (size : Nat) (hs : 0 < size) (l : List Turn) (a : Turn) :
    (truncatePy size (l ++ [a])).getLast? = some a := by
  unfold truncatePy
  by_cases hl : (l ++ [a]).length > size
  · rw [if_pos hl, if_neg (by omega)]
    have hle : (l ++ [a]).length - size ≤ l.length := by
      rw [List.length_append]
      simp
      omega
    rw [List.drop_append_of_le_length hle, List.getLast?_concat]
  · rw [if_neg hl, List.getLast?_concat]

theorem isSuffix_append_same {α : Type} {l₁ l₂ : List α} (h : l₁ <:+ l₂)
    (t : List α) : l₁ ++ t <:+ l₂ ++ t := by
  obtain ⟨p, rfl⟩ := h
  exact ⟨p, (List.append_assoc p l₁ t).symm⟩

theorem head?_dropWhile_negp {α : Type} (p : α → Bool) (l : List α) :
    ∀ c, (l.dropWhile p).head? = some c → p c = false := by
  induction l with
  | nil =>
    intro c h
    simp [List.dropWhile] at h
  | cons a l ih =>
    intro c h
    cases hpa : p a with
    | true =>
      rw [List.dropWhile_cons, if_pos hpa] at h
      exact ih c h
    | false =>
      rw [List.dropWhile_cons, if_neg (by simp [hpa])] at h
      rw [List.head?_cons] at h
      simp at h
      rw [← h]
      exact hpa

theorem getLast?_dropWhile_ne_nil {α : Type} (p : α → Bool) (l : List α)
    (h : l.dropWhile p ≠ []) : (l.dropWhile p).getLast? = l.getLast? := by
  obtain ⟨pre, hpre⟩ := @List.dropWhile_suffix α l p
  have hx := @List.getLast?_append_of_ne_nil α pre (l.dropWhile p) h
  rw [hpre] at hx
  exact hx.symm

theorem stripChars_getLast_not_ws (l : List Char) :
    ∀ c, (stripChars l).getLast? = some c → c.isWhitespace = false := by
  intro c h
  unfold stripChars at h
  rw [List.getLast?_reverse] at h
  exact head?_dropWhile_negp _ _ c h

theorem stripChars_head_not_ws (l : List Char) :
    ∀ c, (stripChars l).head? = some c → c.isWhitespace = false := by
  intro c h
  unfold stripChars at h
  rw [List.head?_reverse] at h
  have hne : (l.dropWhile Char.isWhitespace).reverse.dropWhile Char.isWhitespace ≠ [] := by
    intro hnil
    rw [hnil] at h
    simp at h
  rw [getLast?_dropWhile_ne_nil _ _ hne, List.getLast?_reverse] at h
  exact head?_dropWhile_negp _ _ c h

theorem acceptOk_nil (limit : Nat) : acceptOk limit [] := by
  intro l₁ t l₂ h
  exact absurd h.symm (List.append_ne_nil_of_right_ne_nil l₁ (List.cons_ne_nil t l₂))

theorem acceptOk_of_concat (limit : Nat) (L : List ℚ) (t : ℚ)
    (h : acceptOk limit (L ++ [t])) : acceptOk limit L := by
  intro l₁ u l₂ heq
  refine h l₁ u (l₂ ++ [t]) ?_
  rw [heq]
  simp

theorem acceptOk_concat (limit : Nat) (P : List ℚ) (t : ℚ)
    (hP : acceptOk limit P)
    (ht : (P.filter fun s => decide (t - s < 1)).length < limit) :
    acceptOk limit (P ++ [t]) := by
  intro l₁ u l₂ heq
  rcases List.eq_nil_or_concat l₂ with h2 | ⟨l₂', b, h2⟩
  · subst h2
    obtain ⟨hPl, htu⟩ := List.append_inj' heq rfl
    obtain rfl : t = u := by injection htu
    rw [← hPl]
    exact ht
  · subst h2
    have heq' : P ++ [t] = (l₁ ++ u :: l₂') ++ [b] := by
      rw [heq, List.concat_eq_append]
      simp
    obtain ⟨hPl, -⟩ := List.append_inj' heq' rfl
    exact hP l₁ u l₂' hPl

theorem purge_of_filter (P : List ℚ) (n₀ now : ℚ) (h : n₀ ≤ now) :
    purgeOld now (P.filter fun s => decide (n₀ - s < 1)) =
      P.filter fun s => decide (now - s < 1) := by
  unfold purgeOld
  rw [List.filter_filter]
  refine List.filter_congr fun a _ => ?_
  by_cases hc : now - a < 1
  · have h1 : n₀ - a < 1 := by linarith
    simp [hc, h1]
  · simp [hc]

theorem rateLimitRun_acceptOk (limit : Nat) :
    ∀ (events P : List ℚ) (n₀ : ℚ),
      (∀ p ∈ P, p ≤ n₀) → (∀ e ∈ events, n₀ ≤ e) →
      events.Sorted (· ≤ ·) → acceptOk limit P →
      acceptOk limit
        (P ++ (rateLimitRun limit (P.filter fun s => decide (n₀ - s < 1)) events).2) := by
  intro events
  induction events with
  | nil =>
    intro P n₀ _ _ _ hP
    simpa [rateLimitRun] using hP
  | cons now rest ih =>
    intro P n₀ hPle hev hsort hP
    have hn : n₀ ≤ now := hev now (List.mem_cons_self _ _)
    have hrest : ∀ e ∈ rest, now ≤ e := (List.sorted_cons.mp hsort).1
    have hsort' : rest.Sorted (· ≤ ·) := (List.sorted_cons.mp hsort).2
    have hPle' : ∀ p ∈ P, p ≤ now := fun p hp => le_trans (hPle p hp) hn
    rw [rateLimitRun]
    simp only [rateLimitStep, purge_of_filter P n₀ now hn]
    by_cases hlim : (P.filter fun s => decide (now - s < 1)).length ≥ limit
    · rw [if_pos hlim]
      simpa using ih P now hPle' hrest hsort' hP
    · rw [if_neg hlim]
      have hfil : (P.filter fun s => decide (now - s < 1)) ++ [now] =
          (P ++ [now]).filter fun s => decide (now - s < 1) := by
        rw [List.filter_append]
        norm_num
      have hPle'' : ∀ p ∈ P ++ [now], p ≤ now := by
        intro p hp
        rcases List.mem_append.mp hp with hp | hp
        · exact hPle' p hp
        · rw [List.mem_singleton.mp hp]
      have hP' : acceptOk limit (P ++ [now]) :=
        acceptOk_concat limit P now hP (by omega)
      have := ih (P ++ [now]) now hPle'' hrest hsort' hP'
      rw [hfil]
      simpa [List.append_assoc] using this

theorem acceptedTimes_acceptOk (limit : Nat) (events : List ℚ)
    (hsort : events.Sorted (· ≤ ·)) :
    acceptOk limit (acceptedTimes limit events) := by
  cases events with
  | nil => simpa [acceptedTimes, rateLimitRun] using acceptOk_nil limit
  | cons now rest =>
    have h := rateLimitRun_acceptOk limit (now :: rest) [] now
      (by simp)
      (by
        intro e he
        rcases List.mem_cons.mp he with rfl | he
        · exact le_refl e
        · exact (List.sorted_cons.mp hsort).1 e he)
      hsort (acceptOk_nil limit)
    simpa [acceptedTimes] using h

theorem windowCount_le (limit : Nat) (T : ℚ) (L : List ℚ) :
    acceptOk limit L →
      (L.countP fun s => decide (T - 1 < s ∧ s ≤ T)) ≤ limit := by
  induction L using List.reverseRecOn with
  | nil => intro _; simp
  | append_singleton L' t ih =>
    intro hL
    have hL' : acceptOk limit L' := acceptOk_of_concat limit L' t hL
    rw [List.countP_append]
    by_cases hw : T - 1 < t ∧ t ≤ T
    · have h1 : (List.countP (fun s => decide (T - 1 < s ∧ s ≤ T)) [t]) = 1 := by
        simp [List.countP_cons, hw.1, hw.2]
      have hmono : (L'.countP fun s => decide (T - 1 < s ∧ s ≤ T)) ≤
          L'.countP fun s => decide (t - s < 1) := by
        refine List.countP_mono_left fun s _ hs => ?_
        rw [decide_eq_true_eq] at hs ⊢
        have := hw.2
        linarith [hs.1]
      have hlt := hL L' t [] rfl
      rw [← List.countP_eq_length_filter] at hlt
      omega
    · have h0 : (List.countP (fun s => decide (T - 1 < s ∧ s ≤ T)) [t]) = 0 := by
        simp [List.countP_cons, hw]
      rw [h0]
      simpa using ih hL'

/-! ## Claim theorems -/

/-- C1: the admission step of the `rate_limit` decorator drops every stored
timestamp `t` with `now - t ≥ 1`, rejects without appending when the
remaining count reaches the configured limit, and otherwise appends `now`
and accepts; consequently, for any chronologically ordered sequence of
inbound events of one user, the number of accepted events in any trailing
one-second window `(T - 1, T]` never exceeds the limit. -/
theorem C1_sliding_window_bound (limit : Nat) (events : List ℚ)
    (hsort : events.Sorted (· ≤ ·)) (T : ℚ) :
    ((acceptedTimes limit events).countP fun s => decide (T - 1 < s ∧ s ≤ T)) ≤
      limit :=
  windowCount_le limit T (acceptedTimes limit events)
    (acceptedTimes_acceptOk limit events hsort)

/-- Witness for C1 at the default limit 5: six simultaneous (hence
chronological) events, all inside the trailing window ending at `T = 0`. -/
theorem C1_sliding_window_bound_witness :
    List.Sorted (· ≤ ·) [(0 : ℚ), 0, 0, 0, 0, 0] ∧
    ((acceptedTimes 5 [(0 : ℚ), 0, 0, 0, 0, 0]).countP
        fun s => decide ((0 : ℚ) - 1 < s ∧ s ≤ (0 : ℚ))) ≤ 5 :=
  ⟨by decide,
   C1_sliding_window_bound 5 [(0 : ℚ), 0, 0, 0, 0, 0] (by decide) 0⟩

/-- C3: the chunker of `send_long_message` slices `text` into contiguous,
non-overlapping, order-preserving segments, each of length at most `maxLen`,
whose in-order concatenation is exactly `text` (including empty text and
lengths that are exact multiples of `maxLen`); for the empty string it
produces zero sends. -/
theorem C3_chunker_reconstructs (maxLen : Nat) (text : List Char)
    (h : 0 < maxLen) :
    (splitChunks maxLen text).flatten = text ∧
    (∀ c ∈ splitChunks maxLen text, c.length ≤ maxLen) ∧
    splitChunks maxLen [] = [] ∧
    send_long_message maxLen "" = [] :=
  ⟨splitChunks_flatten maxLen h text,
   splitChunks_chunk_le_aux maxLen text.length text le_rfl,
   splitChunks_nil maxLen,
   send_long_message_empty maxLen⟩

/-- Witness for C3 at `maxLen = 3` and the five-character text `abcde`
(a non-multiple of the chunk size; the hypothesis `0 < 3` is concrete). -/
theorem C3_chunker_reconstructs_witness :
    0 < 3 ∧
    ((splitChunks 3 ['a', 'b', 'c', 'd', 'e']).flatten = ['a', 'b', 'c', 'd', 'e'] ∧
      (∀ c ∈ splitChunks 3 ['a', 'b', 'c', 'd', 'e'], c.length ≤ 3) ∧
      splitChunks 3 [] = [] ∧
      send_long_message 3 "" = []) :=
  ⟨by decide, C3_chunker_reconstructs 3 ['a', 'b', 'c', 'd', 'e'] (by decide)⟩

/-- C5: when the generation call raises a failure, `handle_message` sends the
user exactly the generic apology text, the conversation log is the user-turn
append (with its truncation) only, and no assistant turn is added: the count
of assistant turns does not increase. -/
theorem C5_failure_apology_no_assistant_turn (cfg : BotConfig) (userId : Nat)
    (msg : String) (log : List Turn)
    (hub : cfg.blocked_users.contains (toString userId) = false) :
    (handle_message cfg userId msg GenResult.failure log).1 = [genFailureMsg] ∧
    (handle_message cfg userId msg GenResult.failure log).2 =
      truncatePy cfg.conversation_history_size (log ++ [userTurn msg]) ∧
    ((handle_message cfg userId msg GenResult.failure log).2.countP
        fun t => decide (t.role = Role.assistant)) ≤
      log.countP fun t => decide (t.role = Role.assistant) := by
  have hub' : toString userId ∉ cfg.blocked_users := by simpa using hub
  refine ⟨by simp [handle_message, hub'], by simp [handle_message, hub'], ?_⟩
  have h2 : (handle_message cfg userId msg GenResult.failure log).2 =
      truncatePy cfg.conversation_history_size (log ++ [userTurn msg]) := by
    simp [handle_message, hub']
  rw [h2]
  have hsub := ((truncatePy_suffix cfg.conversation_history_size
    (log ++ [userTurn msg])).sublist).countP_le
      fun t => decide (t.role = Role.assistant)
  rw [List.countP_append] at hsub
  simpa [List.countP_cons, userTurn] using hsub

/-- Witness for C5: the default configuration, user 1 (not blocked), message
"hi" and an empty prior log. -/
theorem C5_failure_apology_no_assistant_turn_witness :
    defaultBotConfig.blocked_users.contains (toString 1) = false ∧
    ((handle_message defaultBotConfig 1 "hi" GenResult.failure []).1 = [genFailureMsg] ∧
      (handle_message defaultBotConfig 1 "hi" GenResult.failure []).2 =
        truncatePy defaultBotConfig.conversation_history_size ([] ++ [userTurn "hi"]) ∧
      ((handle_message defaultBotConfig 1 "hi" GenResult.failure []).2.countP
          fun t => decide (t.role = Role.assistant)) ≤
        ([] : List Turn).countP fun t => decide (t.role = Role.assistant)) :=
  ⟨rfl, C5_failure_apology_no_assistant_turn defaultBotConfig 1 "hi" [] rfl⟩

/-- C2 is false as stated: six successful exchanges under the default cap of
10 leave the log at length 11, because the assistant-turn append on
bot.py line 278 is not followed by a truncation. -/
theorem C2_cap_counterexample :
    ¬ ((runMessages defaultBotConfig 1 []
          (List.replicate 6 ("hi", GenResult.success "ok"))).length ≤
        defaultBotConfig.conversation_history_size) := by
  decide

/-- Invariant behind C2 amended: starting within the cap-plus-one bound, any
sequence of handled messages of an unblocked user keeps the log within
`N + 1` turns, and the log is always a suffix of the previous log followed
by the turns appended so far, in arrival order. -/
theorem runMessages_inv (cfg : BotConfig) (userId : Nat)
    (hN : 0 < cfg.conversation_history_size)
    (hub : cfg.blocked_users.contains (toString userId) = false) :
    ∀ (events : List (String × GenResult)) (log : List Turn),
      log.length ≤ cfg.conversation_history_size + 1 →
      (runMessages cfg userId log events).length ≤
          cfg.conversation_history_size + 1 ∧
        runMessages cfg userId log events <:+ log ++ arrivalTurns events := by
  have hub' : toString userId ∉ cfg.blocked_users := by simpa using hub
  intro events
  induction events with
  | nil =>
    intro log hlog
    exact ⟨hlog, by simp [runMessages, arrivalTurns]⟩
  | cons e rest ih =>
    intro log hlog
    obtain ⟨msg, gen⟩ := e
    have key : ((handle_message cfg userId msg gen log).2).length ≤
          cfg.conversation_history_size + 1 ∧
        (handle_message cfg userId msg gen log).2 <:+ log ++ turnsOf (msg, gen) := by
      cases gen with
      | failure =>
        have h2 : (handle_message cfg userId msg GenResult.failure log).2 =
            truncatePy cfg.conversation_history_size (log ++ [userTurn msg]) := by
          simp [handle_message, hub']
        rw [h2]
        constructor
        · exact le_trans (truncatePy_length_le _ hN _) (Nat.le_succ _)
        · exact (truncatePy_suffix _ _).trans (by simp [turnsOf])
      | success t =>
        have h2 : (handle_message cfg userId msg (GenResult.success t) log).2 =
            truncatePy cfg.conversation_history_size (log ++ [userTurn msg]) ++
              [assistantTurn t] := by
          simp [handle_message, hub']
        rw [h2]
        constructor
        · rw [List.length_append]
          have := truncatePy_length_le cfg.conversation_history_size hN
            (log ++ [userTurn msg])
          simp
          omega
        · have hs := isSuffix_append_same
            (truncatePy_suffix cfg.conversation_history_size (log ++ [userTurn msg]))
            [assistantTurn t]
          refine hs.trans ?_
          simp [turnsOf]
    obtain ⟨k1, k2⟩ := key
    obtain ⟨r1, r2⟩ := ih (handle_message cfg userId msg gen log).2 k1
    have hrun : runMessages cfg userId log ((msg, gen) :: rest) =
        runMessages cfg userId (handle_message cfg userId msg gen log).2 rest := by
      simp [runMessages]
    rw [hrun]
    refine ⟨r1, r2.trans ?_⟩
    have h3 := isSuffix_append_same k2 (arrivalTurns rest)
    refine h3.trans ?_
    rw [show (log ++ turnsOf (msg, gen)) ++ arrivalTurns rest =
        log ++ arrivalTurns ((msg, gen) :: rest) by
      simp [arrivalTurns, List.append_assoc]]

/-- C2 amended: for an unblocked user and a positive cap `N`, each user-turn
append (which is the only append followed by truncation) leaves the log at
length at most `N`; the assistant-turn append performs no truncation, so
across whole exchanges the log length is only bounded by `N + 1`; and the
retained entries are always the most recent turns in arrival order, i.e. a
suffix of the full arrival sequence of appended turns. -/
theorem C2_history_cap (cfg : BotConfig) (userId : Nat)
    (events : List (String × GenResult)) (log : List Turn) (msg : String)
    (hN : 0 < cfg.conversation_history_size)
    (hub : cfg.blocked_users.contains (toString userId) = false) :
    (runMessages cfg userId [] events).length ≤
        cfg.conversation_history_size + 1 ∧
    runMessages cfg userId [] events <:+ arrivalTurns events ∧
    (truncatePy cfg.conversation_history_size (log ++ [userTurn msg])).length ≤
      cfg.conversation_history_size := by
  obtain ⟨h1, h2⟩ := runMessages_inv cfg userId hN hub events [] (by simp)
  exact ⟨h1, by simpa using h2, truncatePy_length_le _ hN _⟩

/-- Witness for C2 amended: default configuration, unblocked user 1, two
concrete exchanges, and one concrete user-turn append. -/
theorem C2_history_cap_witness :
    0 < defaultBotConfig.conversation_history_size ∧
    defaultBotConfig.blocked_users.contains (toString 1) = false ∧
    ((runMessages defaultBotConfig 1 []
          [("a", GenResult.success "x"), ("b", GenResult.failure)]).length ≤
        defaultBotConfig.conversation_history_size + 1 ∧
      runMessages defaultBotConfig 1 []
          [("a", GenResult.success "x"), ("b", GenResult.failure)] <:+
        arrivalTurns [("a", GenResult.success "x"), ("b", GenResult.failure)] ∧
      (truncatePy defaultBotConfig.conversation_history_size
          ([userTurn "z"] ++ [userTurn "w"])).length ≤
        defaultBotConfig.conversation_history_size) :=
  ⟨by decide, rfl,
   C2_history_cap defaultBotConfig 1
     [("a", GenResult.success "x"), ("b", GenResult.failure)]
     [userTurn "z"] "w" (by decide) rfl⟩

/-- C4 is false as stated: this 31-character text (29 letters, a colon and a
trailing space) has raw length greater than 30 and contains the delimiter,
yet `receive_bot_token` inserts nothing and stays in `AwaitingToken`,
because the check runs on the whitespace-stripped text, whose length is
only 30. -/
theorem C4_raw_length_counterexample :
    (List.replicate 29 'a' ++ [':', ' ']).length > 30 ∧
    (List.replicate 29 'a' ++ [':', ' ']).contains ':' = true ∧
    (receive_bot_token 7 "user" (List.replicate 29 'a' ++ [':', ' ']) 0 []).2.1 =
      DialogueState.AwaitingToken ∧
    (receive_bot_token 7 "user" (List.replicate 29 'a' ++ [':', ' ']) 0 []).2.2 = [] := by
  decide

/-- C4 amended: in the clone dialogue, from state `AwaitingToken`, a text
whose whitespace-stripped form has length greater than 30 and contains the
character `:` causes exactly one CloneRecord insert (of the stripped token)
and a transition to `Idle`; a text whose stripped form fails that check
causes zero inserts and the state remains `AwaitingToken` with a re-prompt;
the `/cancel` command causes zero inserts and a transition to `Idle`. -/
theorem C4_clone_dialogue (userId : Nat) (userName : String) (text : List Char)
    (now : ℚ) (store : List CloneRecord) :
    (tokenShapeOk (stripChars text) = true →
      receive_bot_token userId userName text now store =
        ([cloneSuccessMsg], DialogueState.Idle,
          store ++ [⟨userId, userName, stripChars text, now⟩])) ∧
    (tokenShapeOk (stripChars text) = false →
      receive_bot_token userId userName text now store =
        ([invalidTokenMsg], DialogueState.AwaitingToken, store)) ∧
    cancel_clone store = ([cloneCancelMsg], DialogueState.Idle, store) := by
  refine ⟨fun ht => ?_, fun ht => ?_, rfl⟩
  · simp [receive_bot_token, ht]
  · simp [receive_bot_token, ht]

/-- Witness for C4 amended: a 32-character token with no surrounding
whitespace passes the check and is inserted; the three-character text `ab:`
fails it and leaves the store unchanged. -/
theorem C4_clone_dialogue_witness :
    tokenShapeOk (stripChars (List.replicate 31 'a' ++ [':'])) = true ∧
    tokenShapeOk (stripChars ['a', 'b', ':']) = false ∧
    receive_bot_token 7 "user" (List.replicate 31 'a' ++ [':']) 0 [] =
      ([cloneSuccessMsg], DialogueState.Idle,
        [⟨7, "user", stripChars (List.replicate 31 'a' ++ [':']), 0⟩]) ∧
    receive_bot_token 7 "user" ['a', 'b', ':'] 0 [] =
      ([invalidTokenMsg], DialogueState.AwaitingToken, []) :=
  ⟨by decide, by decide,
   (C4_clone_dialogue 7 "user" (List.replicate 31 'a' ++ [':']) 0 []).1 (by decide),
   (C4_clone_dialogue 7 "user" ['a', 'b', ':'] 0 []).2.1 (by decide)⟩

/-- C7 is violated by the code: when the generation call succeeds with the
empty string, bot.py's `handle_message` sends nothing at all (the chunker
yields zero sends) and records an empty assistant turn, and main.py's
`chat_message` replies with the empty string itself; the distinct
"no content generated" notice exists only in main.py and only for a
response with no candidates/parts. -/
theorem C7_empty_completion_is_silent :
    (handle_message defaultBotConfig 1 "hi" (GenResult.success "") []).1 = [] ∧
    (handle_message defaultBotConfig 1 "hi" (GenResult.success "") []).2 =
      [userTurn "hi", assistantTurn ""] ∧
    chat_message "hi" (ChatGenOutcome.parts "") = [""] ∧
    chat_message "hi" ChatGenOutcome.noParts = [noContentMsg] := by
  refine ⟨?_, rfl, rfl, rfl⟩
  have h1 : (handle_message defaultBotConfig 1 "hi" (GenResult.success "") []).1 =
      send_long_message defaultBotConfig.max_message_length "" := rfl
  rw [h1, send_long_message_empty]

/-- C8: `broadcast` replies to any non-admin caller with the uniform
not-authorized message and attempts no send to any other user; for an admin
caller with arguments, a send is attempted to every known user in order
regardless of individual delivery failures, and the reply reports the
number of successful deliveries. -/
theorem C8_broadcast_gate (adminIds : List Nat) (callerId : Nat)
    (args : List String) (users : List Nat) (deliverOk : Nat → Bool) :
    (is_admin adminIds callerId = false →
      broadcast adminIds callerId args users deliverOk =
        ([], broadcastNotAdminMsg)) ∧
    (is_admin adminIds callerId = true → args.isEmpty = false →
      (broadcast adminIds callerId args users deliverOk).1 = users ∧
      (broadcast adminIds callerId args users deliverOk).2 =
        "📢 Broadcast sent to " ++ toString (users.countP deliverOk) ++
          " users.") := by
  constructor
  · intro h
    simp [broadcast, h]
  · intro h ha
    constructor
    · simp [broadcast, h, ha]
    · simp [broadcast, h, ha]

/-- Witness for C8: caller 6 is not in the admin set `[5]` and gets the
refusal with no attempts; admin caller 5 broadcasting "hello" to users
`[1, 2, 3]`, where delivery to user 2 fails, attempts all three sends and
reports 2 successes. -/
theorem C8_broadcast_gate_witness :
    is_admin [5] 6 = false ∧
    broadcast [5] 6 ["hello"] [1, 2, 3] (fun u => !(u == 2)) =
      ([], broadcastNotAdminMsg) ∧
    is_admin [5] 5 = true ∧
    (["hello"] : List String).isEmpty = false ∧
    ((broadcast [5] 5 ["hello"] [1, 2, 3] (fun u => !(u == 2))).1 = [1, 2, 3] ∧
      (broadcast [5] 5 ["hello"] [1, 2, 3] (fun u => !(u == 2))).2 =
        "📢 Broadcast sent to " ++
          toString (([1, 2, 3] : List Nat).countP fun u => !(u == 2)) ++
          " users.") :=
  ⟨by decide,
   (C8_broadcast_gate [5] 6 ["hello"] [1, 2, 3] (fun u => !(u == 2))).1 (by decide),
   by decide, by decide,
   (C8_broadcast_gate [5] 5 ["hello"] [1, 2, 3] (fun u => !(u == 2))).2
     (by decide) (by decide)⟩

/-- C10: `receive_bot_token` strips leading and trailing whitespace from the
received text before the token-shape check (the dialogue advances to `Idle`
exactly when the stripped form passes the check) and before persistence (on
success the stored `bot_token` is the stripped text), and the stripped text
never starts or ends with a whitespace character. -/
theorem C10_token_stripped (userId : Nat) (userName : String) (text : List Char)
    (now : ℚ) (store : List CloneRecord) :
    ((receive_bot_token userId userName text now store).2.1 = DialogueState.Idle ↔
      tokenShapeOk (stripChars text) = true) ∧
    (tokenShapeOk (stripChars text) = true →
      (receive_bot_token userId userName text now store).2.2 =
        store ++ [⟨userId, userName, stripChars text, now⟩]) ∧
    (∀ c, (stripChars text).head? = some c → c.isWhitespace = false) ∧
    (∀ c, (stripChars text).getLast? = some c → c.isWhitespace = false) := by
  refine ⟨?_, fun ht => by simp [receive_bot_token, ht],
    stripChars_head_not_ws text, stripChars_getLast_not_ws text⟩
  unfold receive_bot_token
  by_cases ht : tokenShapeOk (stripChars text) = true
  · simp [ht]
  · simp [ht]

/-- Witness for C10: the token `  aaa...a:  ` (31 letters and a colon inside
two spaces on each side) is stripped, passes the check, is stored stripped,
and its first and last characters are not whitespace. -/
theorem C10_token_stripped_witness :
    tokenShapeOk (stripChars ([' ', ' '] ++ (List.replicate 31 'a' ++ [':']) ++ [' ', ' '])) = true ∧
    (receive_bot_token 9 "n"
        ([' ', ' '] ++ (List.replicate 31 'a' ++ [':']) ++ [' ', ' ']) 0 []).2.2 =
      [⟨9, "n", stripChars ([' ', ' '] ++ (List.replicate 31 'a' ++ [':']) ++ [' ', ' ']), 0⟩] ∧
    (stripChars ([' ', ' '] ++ (List.replicate 31 'a' ++ [':']) ++ [' ', ' '])).head? = some 'a' ∧
    ('a').isWhitespace = false ∧
    (stripChars ([' ', ' '] ++ (List.replicate 31 'a' ++ [':']) ++ [' ', ' '])).getLast? = some ':' ∧
    (':').isWhitespace = false :=
  ⟨by decide,
   (C10_token_stripped 9 "n"
      ([' ', ' '] ++ (List.replicate 31 'a' ++ [':']) ++ [' ', ' ']) 0 []).2.1 (by decide),
   by decide,
   (C10_token_stripped 9 "n"
      ([' ', ' '] ++ (List.replicate 31 'a' ++ [':']) ++ [' ', ' ']) 0 []).2.2.1 'a' (by decide),
   by decide,
   (C10_token_stripped 9 "n"
      ([' ', ' '] ++ (List.replicate 31 'a' ++ [':']) ++ [' ', ' ']) 0 []).2.2.2 ':' (by decide)⟩

/-- C6 is false as stated: `rate_limit` is a decorator around
`handle_message`, so the rate-limit gate runs before the blocklist check.
Here a blocked user (user 1 of `blockedCfg`) sends a message with an empty
rate window: the blocklist turns the message away, yet the rate limiter has
already recorded the timestamp `0` for that user. -/
theorem C6_blocklist_after_rate_counterexample :
    (processTextEvent blockedCfg 1 0 [] "hi" GenResult.failure []).1 =
      [blockedMsg] ∧
    (processTextEvent blockedCfg 1 0 [] "hi" GenResult.failure []).2.1 =
      [(0 : ℚ)] := by
  constructor <;> rfl

/-- C6 amended: for a plain-text event, bot.py applies the stages in the
order: rate-limit gate (the decorator) first, then blocklist check, then
user-turn history append with truncation, then generation, then chunked
reply, then assistant-turn history append; there is no dialogue-state stage
in this pipeline (the clone dialogue belongs to the separate main.py entry
point, whose ConversationHandler is registered before the generic chat
handler); in particular a blocked user's admitted message is recorded by
the rate-limit gate before the blocklist check turns it away. -/
theorem C6_pipeline_order (cfg : BotConfig) (userId : Nat) (now : ℚ)
    (times : List ℚ) (msg : String) (log : List Turn) :
    ((purgeOld now times).length ≥ cfg.rate_limit_per_user →
      ∀ gen, processTextEvent cfg userId now times msg gen log =
        ([rateLimitMsg], purgeOld now times, log)) ∧
    ((purgeOld now times).length < cfg.rate_limit_per_user →
      cfg.blocked_users.contains (toString userId) = true →
      ∀ gen, processTextEvent cfg userId now times msg gen log =
        ([blockedMsg], purgeOld now times ++ [now], log)) ∧
    ((purgeOld now times).length < cfg.rate_limit_per_user →
      cfg.blocked_users.contains (toString userId) = false →
      processTextEvent cfg userId now times msg GenResult.failure log =
        ([genFailureMsg], purgeOld now times ++ [now],
          truncatePy cfg.conversation_history_size (log ++ [userTurn msg])) ∧
      ∀ t, processTextEvent cfg userId now times msg (GenResult.success t) log =
        (send_long_message cfg.max_message_length t, purgeOld now times ++ [now],
          truncatePy cfg.conversation_history_size (log ++ [userTurn msg]) ++
            [assistantTurn t])) := by
  refine ⟨fun hge gen => ?_, fun hlt hb gen => ?_, fun hlt hb => ?_⟩
  · simp [processTextEvent, hge]
  · have hb' : toString userId ∈ cfg.blocked_users := by simpa using hb
    simp [processTextEvent, handle_message, Nat.not_le.mpr hlt, hb']
  · have hb' : toString userId ∉ cfg.blocked_users := by simpa using hb
    constructor
    · simp [processTextEvent, handle_message, Nat.not_le.mpr hlt, hb']
    · intro t
      simp [processTextEvent, handle_message, Nat.not_le.mpr hlt, hb']

/-- Witness for C6 amended: default configuration, user 1, `now = 0`, empty
window and log, exercising the rate-limited branch (after five stored
in-window timestamps) and the unblocked failure branch. -/
theorem C6_pipeline_order_witness :
    (purgeOld 0 [(0 : ℚ), 0, 0, 0, 0]).length ≥
        defaultBotConfig.rate_limit_per_user ∧
    processTextEvent defaultBotConfig 1 0 [(0 : ℚ), 0, 0, 0, 0] "hi"
        GenResult.failure [] =
      ([rateLimitMsg], purgeOld 0 [(0 : ℚ), 0, 0, 0, 0], []) ∧
    (purgeOld 0 ([] : List ℚ)).length < defaultBotConfig.rate_limit_per_user ∧
    defaultBotConfig.blocked_users.contains (toString 1) = false ∧
    processTextEvent defaultBotConfig 1 0 [] "hi" GenResult.failure [] =
      ([genFailureMsg], purgeOld 0 ([] : List ℚ) ++ [(0 : ℚ)],
        truncatePy defaultBotConfig.conversation_history_size
          ([] ++ [userTurn "hi"])) := by
  have hp : purgeOld 0 [(0 : ℚ), 0, 0, 0, 0] = [(0 : ℚ), 0, 0, 0, 0] := by
    simp [purgeOld]
  refine ⟨by rw [hp]; decide,
    (C6_pipeline_order defaultBotConfig 1 0 [(0 : ℚ), 0, 0, 0, 0] "hi" []).1
      (by rw [hp]; decide) GenResult.failure,
    by decide, rfl,
    ((C6_pipeline_order defaultBotConfig 1 0 [] "hi" []).2.2
      (by decide) rfl).1⟩

/-- C9 is false as stated: with the default cap 10 and a log already holding
10 turns, a failed exchange leaves the log at length 10, not one longer
than before, because the user-turn append triggered truncation. -/
theorem C9_exact_increment_counterexample :
    ¬ (((handle_message defaultBotConfig 1 "hi" GenResult.failure
          (List.replicate 10 (userTurn "x"))).2).length =
        (List.replicate 10 (userTurn "x")).length + 1) := by
  decide

/-- C9 amended: when the generation call fails for an unblocked user, the
user turn appended before the call is not rolled back: the resulting log is
the user-turn append with its truncation, it ends with the new user turn,
and no assistant turn is appended; it is exactly one turn longer than
before only when the prior length was below the cap `N` (at or above the
cap, truncation keeps the length at `N` or reduces it). -/
theorem C9_user_turn_retained (cfg : BotConfig) (userId : Nat) (msg : String)
    (log : List Turn) (hN : 0 < cfg.conversation_history_size)
    (hub : cfg.blocked_users.contains (toString userId) = false) :
    (handle_message cfg userId msg GenResult.failure log).2 =
      truncatePy cfg.conversation_history_size (log ++ [userTurn msg]) ∧
    ((handle_message cfg userId msg GenResult.failure log).2).getLast? =
      some (userTurn msg) ∧
    (log.length < cfg.conversation_history_size →
      ((handle_message cfg userId msg GenResult.failure log).2).length =
        log.length + 1) := by
  have hub' : toString userId ∉ cfg.blocked_users := by simpa using hub
  have h2 : (handle_message cfg userId msg GenResult.failure log).2 =
      truncatePy cfg.conversation_history_size (log ++ [userTurn msg]) := by
    simp [handle_message, hub']
  refine ⟨h2, by rw [h2]; exact truncatePy_getLast _ hN _ _, fun hlen => ?_⟩
  rw [h2]
  unfold truncatePy
  rw [if_neg (by simp; omega)]
  simp

/-- Witness for C9 amended: default configuration, unblocked user 1, a
concrete two-turn prior log (below the cap of 10). -/
theorem C9_user_turn_retained_witness :
    0 < defaultBotConfig.conversation_history_size ∧
    defaultBotConfig.blocked_users.contains (toString 1) = false ∧
    ([userTurn "a", assistantTurn "b"] : List Turn).length <
      defaultBotConfig.conversation_history_size ∧
    ((handle_message defaultBotConfig 1 "hi" GenResult.failure
        [userTurn "a", assistantTurn "b"]).2 =
      truncatePy defaultBotConfig.conversation_history_size
        ([userTurn "a", assistantTurn "b"] ++ [userTurn "hi"]) ∧
    ((handle_message defaultBotConfig 1 "hi" GenResult.failure
        [userTurn "a", assistantTurn "b"]).2).getLast? = some (userTurn "hi") ∧
    ((handle_message defaultBotConfig 1 "hi" GenResult.failure
        [userTurn "a", assistantTurn "b"]).2).length =
      ([userTurn "a", assistantTurn "b"] : List Turn).length + 1) :=
  ⟨by decide, rfl, by decide,
   (C9_user_turn_retained defaultBotConfig 1 "hi"
      [userTurn "a", assistantTurn "b"] (by decide) rfl).1,
   (C9_user_turn_retained defaultBotConfig 1 "hi"
      [userTurn "a", assistantTurn "b"] (by decide) rfl).2.1,
   (C9_user_turn_retained defaultBotConfig 1 "hi"
      [userTurn "a", assistantTurn "b"] (by decide) rfl).2.2 (by decide)⟩

end Chat
